import Mathlib

/-!
Verification of the declarative resolution logic of the `nmbooker-boxbuild`
provisioning scripts (`nick_home_box.py`, `nick_home_box_mint.py`,
`heredocs.py`).

The Python code is shallowly embedded: dictionaries become association
lists with a first-match lookup, Python `set`/`frozenset` become `Finset
String`, fallible code (KeyError, failed assertions, `sys.exit`) becomes
`Option`/explicit outcome types, and the external-command effectors become
functions of the exit codes the external world returns.
-/

set_option autoImplicit false

namespace BoxBuild

/-! ## Python string primitives used by `heredoc` and `main` -/

/-- Mirrors CPython `str.isspace` on the characters that can occur here:
the Unicode whitespace code points recognised by `str.isspace`. -/
def pyIsSpaceChar (c : Char) : Bool :=
  c = ' ' || c = '\t' || c = '\n' || c = '\x0b' || c = '\x0c' || c = '\x0d' ||
  c = '\x1c' || c = '\x1d' || c = '\x1e' || c = '\x1f' ||
  c = '\u0085' || c = ' ' || c = ' ' ||
  (0x2000 ≤ c.toNat && c.toNat ≤ 0x200a) ||
  c = ' ' || c = ' ' || c = ' ' || c = ' ' || c = '　'

/-- Python `s.isspace()`: nonempty and every character is whitespace. -/
def pyIsSpaceStr (s : String) : Bool :=
  !s.data.isEmpty && s.data.all pyIsSpaceChar

/-- The line-boundary characters of CPython `str.splitlines`
(besides the two-character boundary `"\r\n"`). -/
def pyIsLineBreak (c : Char) : Bool :=
  c = '\n' || c = '\r' || c = '\x0b' || c = '\x0c' ||
  c = '\x1c' || c = '\x1d' || c = '\x1e' ||
  c = '\u0085' || c = ' ' || c = ' '

/-- One step of `splitLines`, prepending a character to the line split of
the remaining suffix: a non-break character extends (or starts) the first
line; a break character starts a new line, except that a CR directly before
a line starting with LF fuses into one CRLF line ending. -/
def splitStep (c : Char) (L : List (List Char)) : List (List Char) :=
  if pyIsLineBreak c then
    if c = '\r' then
      match L with
      | ('\n' :: t) :: rest => ('\r' :: '\n' :: t) :: rest
      | _ => ['\r'] :: L
    else [c] :: L
  else
    match L with
    | [] => [[c]]
    | l :: rest => (c :: l) :: rest

/-- Python `astring.splitlines(keepends=True)`. -/
def splitLines (s : String) : List String :=
  (s.data.foldr splitStep []).map (fun l => ⟨l⟩)

/-- Boolean "is `p` a prefix of `l`" on character lists
(Python `str.startswith`). -/
def listStartsWith : List Char → List Char → Bool
  | [], _ => true
  | _ :: _, [] => false
  | p :: ps, c :: cs => p = c && listStartsWith ps cs

/-- Python `s.rstrip(chr(10))`: remove every trailing newline character. -/
def rstripNl (s : String) : String :=
  ⟨(s.data.reverse.dropWhile (fun c => c = '\n')).reverse⟩

/-- Python `l.removeprefix(t)` on character lists. -/
def pyRemovePrefix (t l : List Char) : List Char :=
  if listStartsWith t l then l.drop t.length else l

/-- The body of `heredoc` once the input has been split into lines:
`lines[0]`/`lines[-1]` must be all whitespace, every line of `lines[1:-1]`
must start with the last line stripped of trailing newlines, and the result
joins the unindented interior lines.  `none` models an `AssertionError`
(or the `IndexError` on an empty line list). -/
def heredocLines : List String → Option String
  | [] => none
  | first :: rest =>
    let last_line := rest.getLastD first
    let content_lines := rest.dropLast
    if pyIsSpaceStr first then
      if pyIsSpaceStr last_line then
        let t := rstripNl last_line
        if content_lines.all (fun l => listStartsWith t.data l.data) then
          some ⟨(content_lines.map (fun l => pyRemovePrefix t.data l.data)).flatten⟩
        else none
      else none
    else none

/-- `heredoc` from `heredocs.py` / `nick_home_box.py`: unindent an indented
multi-line string; `none` models a raised exception. -/
def heredoc (astring : String) : Option String :=
  heredocLines (splitLines astring)

/-! ## Dictionaries and the resolution engine

Python `dict` literals become association lists (`List (String × α)`);
`lookupStr` is dictionary indexing, returning `none` where Python raises
`KeyError`. -/

/-- First-match lookup in an association list (Python `d[k]` / `d.get(k)`). -/
def lookupStr {α : Type} : List (String × α) → String → Option α
  | [], _ => none
  | (k0, v) :: rest, k => if k = k0 then some v else lookupStr rest k

/-- `packages_for_individual_roles`: `union(roles[rolename] for rolename in
requested_roles)`.  Indexing `roles[rolename]` raises `KeyError` for a role
that is not a key, modelled by `none`. -/
def packagesForIndividualRoles (rolesCat : List (String × Finset String))
    (requested : Finset String) : Option (Finset String) :=
  if ∀ r ∈ requested, (lookupStr rolesCat r).isSome then
    some (requested.biUnion (fun r => (lookupStr rolesCat r).getD ∅))
  else none

/-- `packages_for_role_combinations`: add each `dependent_packages` key whose
required-role set is a subset of the requested roles. -/
def packagesForRoleCombinations (depCat : List (String × Finset String))
    (requested : Finset String) : Finset String :=
  ((depCat.filter (fun pr => pr.2 ⊆ requested)).map Prod.fst).toFinset

/-- `packages_for_roles`: individual-role packages unioned with the
role-combination packages; propagates the `KeyError` of the first part. -/
def packagesForRoles (rolesCat depCat : List (String × Finset String))
    (requested : Finset String) : Option (Finset String) :=
  (packagesForIndividualRoles rolesCat requested).map
    (· ∪ packagesForRoleCombinations depCat requested)

/-- `flatpaks_for_individual_roles`: `union(flatpaks.get(rolename,
frozenset()) for rolename in requested_roles)` — total, unknown roles
contribute the empty set. -/
def flatpaksForIndividualRoles (fpCat : List (String × Finset String))
    (requested : Finset String) : Finset String :=
  requested.biUnion (fun r => (lookupStr fpCat r).getD ∅)

/-- The repo-tag set of `extra_repos_for_packages`:
`union(package_dnf_repos.get(pkgname, set()) for pkgname in required_packages)`. -/
def extraRepoNames (pkgRepoCat : List (String × Finset String))
    (requiredPackages : Finset String) : Finset String :=
  requiredPackages.biUnion (fun p => (lookupStr pkgRepoCat p).getD ∅)

/-- `extra_repos_for_packages`: resolve each collected repo tag through
`dnf_repos[reponame]` (a raising indexing, modelled by `none`); the list
built from iterating a frozenset is modelled as a `Multiset` since Python
fixes no iteration order. -/
def extraReposForPackages {ρ : Type} [Inhabited ρ]
    (pkgRepoCat : List (String × Finset String)) (repoCat : List (String × ρ))
    (requiredPackages : Finset String) : Option (Multiset ρ) :=
  let names := extraRepoNames pkgRepoCat requiredPackages
  if ∀ t ∈ names, (lookupStr repoCat t).isSome then
    some (names.val.map (fun t => (lookupStr repoCat t).getD default))
  else none

/-! ## Effectors as functions of external exit codes

`run(..., check=True)` raises `CalledProcessError` on a non-zero exit
status; we model an aborted run as `Except.error code`. -/

/-- `run(cmd, check=True)` / `ret.check_returncode()`: succeed exactly on
exit status 0, otherwise abort carrying the status. -/
def runChecked (code : Int) : Except Int Unit :=
  if code = 0 then .ok () else .error code

/-! ## nick_home_box.py (Fedora variant) -/

namespace Nhb

/-- The `Repo` record built by `yumrepo` in `nick_home_box.py`. -/
structure Repo where
  repofile : String
  file_stem : String
  import_gpg_key : String
deriving DecidableEq, Inhabited

/-- `yumrepo(name, filestem, baseurl, gpg_key_url)` from `nick_home_box.py`;
the repo-file body is the dedented f-string. -/
def yumrepo (name filestem baseurl gpg_key_url : String) : Repo :=
  { repofile :=
      (heredoc ("\n        [code]\n        name=" ++ name ++
        "\n        baseurl=" ++ baseurl ++
        "\n        enabled=1\n        gpgcheck=1\n        gpgkey=" ++
        gpg_key_url ++ "\n        ")).getD ""
    file_stem := filestem
    import_gpg_key := gpg_key_url }

/-- `machine_roles` of `nick_home_box.py`. -/
def machineRoles : List (String × Finset String) :=
  [("jay", {"common", "gnome", "home", "work"}),
   ("jake", {"common", "gnome", "work"}),
   ("missy", {"common", "gnome", "work"}),
   ("vimes", {"common", "games", "gnome", "home", "lazyscan-deps", "nvidia"})]

/-- `dnf_repos` of `nick_home_box.py`. -/
def dnfRepos : List (String × Repo) :=
  [("vscode",
    yumrepo "Visual Studio Code" "vscode"
      "https://packages.microsoft.com/yumrepos/vscode"
      "https://packages.microsoft.com/keys/microsoft.asc")]

/-- `package_dnf_repos` of `nick_home_box.py`. -/
def packageDnfRepos : List (String × Finset String) :=
  [("code", {"vscode"})]

/-- `flatpaks` of `nick_home_box.py`. -/
def flatpaksCat : List (String × Finset String) :=
  [("common", {"com.github.tchx84.Flatseal"}),
   ("gnome", {"com.mattjakeman.ExtensionManager"}),
   ("work", {"com.brave.Browser"})]

/-- `roles` of `nick_home_box.py`. -/
def rolesCat : List (String × Finset String) :=
  [("common", {"firewall-config", "python-mypy"}),
   ("games", {"mono-core", "mono-devel", "steam"}),
   ("gnome", {"chrome-gnome-shell", "gnome-tweaks"}),
   ("home", {"code", "deja-dup", "dotnet-sdk-6.0", "haskell-platform",
             "java-11-openjdk-devel", "keepassxc", "neovim", "syncthing",
             "vim-enhanced"}),
   ("lazyscan-deps",
    {"ImageMagick", "perl(App::cpanminus)", "perl(autodie)",
     "perl(Exporter::Easy)", "perl(Number::Range)", "perl(failures)",
     "perl(File::Slurp)", "perl(List::MoreUtils)", "perl(local::lib)",
     "perl(LockFile::Simple)", "perl(Moo)", "perl(Tk)", "perl(Try::Tiny)",
     "sane-backends", "xterm"}),
   ("nvidia", {"akmod-nvidia"}),
   ("work", {"code", "dotnet-sdk-6.0", "epiphany", "gajim", "kwrite",
             "keepassxc", "neovim", "nextcloud-client", "okular",
             "thunderbird", "thunderbird-wayland", "vim-enhanced",
             "xournalpp"})]

/-- `dependent_packages` of `nick_home_box.py`. -/
def dependentPackages : List (String × Finset String) :=
  [("nextcloud-client-nautilus", {"gnome", "work"})]

/-- `packages_for_individual_roles` of `nick_home_box.py`. -/
def packagesForIndividualRoles (requested : Finset String) : Option (Finset String) :=
  BoxBuild.packagesForIndividualRoles rolesCat requested

/-- `packages_for_role_combinations` of `nick_home_box.py`. -/
def packagesForRoleCombinations (requested : Finset String) : Finset String :=
  BoxBuild.packagesForRoleCombinations dependentPackages requested

/-- `packages_for_roles` of `nick_home_box.py`. -/
def packagesForRoles (requested : Finset String) : Option (Finset String) :=
  BoxBuild.packagesForRoles rolesCat dependentPackages requested

/-- `flatpaks_for_individual_roles` of `nick_home_box.py`. -/
def flatpaksForIndividualRoles (requested : Finset String) : Finset String :=
  BoxBuild.flatpaksForIndividualRoles flatpaksCat requested

/-- `extra_repos_for_packages` of `nick_home_box.py`. -/
def extraReposForPackages (requiredPackages : Finset String) : Option (Multiset Repo) :=
  BoxBuild.extraReposForPackages packageDnfRepos dnfRepos requiredPackages

/-- The exit statuses the external world returns to one `install_repo` call:
`sudo rpm --import`, `sudo tee`, `sudo dnf check-update`. -/
structure InstallRepoCodes where
  rpmImport : Int
  tee : Int
  checkUpdate : Int

/-- `install_repo` of `nick_home_box.py` as a function of the exit statuses:
the first two commands run with `check=True`; the `dnf check-update` probe
passes when its status is 100, otherwise `check_returncode()` applies. -/
def installRepo (c : InstallRepoCodes) : Except Int Unit := do
  runChecked c.rpmImport
  runChecked c.tee
  if c.checkUpdate = 100 then pure () else runChecked c.checkUpdate

/-- The `for repo in extra_repos: install_repo(repo)` loop of `main`. -/
def installRepoLoop : List InstallRepoCodes → Except Int Unit
  | [] => .ok ()
  | c :: rest => do
    installRepo c
    installRepoLoop rest

/-- Exit statuses for the non-repo effectors of one `main` run:
`sudo dnf install` (run only when the package set is nonempty),
`sudo flatpak remote-add`, `sudo flatpak install` (run only when the
flatpak set is nonempty). -/
structure EffectorCodes where
  repoCodes : List InstallRepoCodes
  dnfInstall : Int
  flatpakRemoteAdd : Int
  flatpakInstall : Int

/-- The effector sequence of `main` in `nick_home_box.py` after resolution:
install repos, then `dnf(packages)`, then `enable_flathub()`, then
`install_flatpaks_from_flathub(...)`; every step aborts the run on its
first fatal status. -/
def effectorRun (e : EffectorCodes) (hasPackages hasFlatpaks : Bool) : Except Int Unit := do
  installRepoLoop e.repoCodes
  if hasPackages then runChecked e.dnfInstall else pure ()
  runChecked e.flatpakRemoteAdd
  if hasFlatpaks then runChecked e.flatpakInstall else pure ()

end Nhb

/-! ## nick_home_box_mint.py (Mint/apt variant) -/

namespace Mint

/-- The repo record built by `yumrepo` in `nick_home_box_mint.py`
(one extra field, `gpg_key_basename`). -/
structure Repo where
  repofile : String
  file_stem : String
  import_gpg_key : String
  gpg_key_basename : String
deriving DecidableEq, Inhabited

/-- `yumrepo(repo_lines, filestem, gpg_key_url, gpg_key_basename)` from
`nick_home_box_mint.py`: joins each line with a trailing newline. -/
def yumrepo (repo_lines : List String) (filestem gpg_key_url gpg_key_basename : String) : Repo :=
  { repofile := String.join (repo_lines.map (· ++ "\n"))
    file_stem := filestem
    import_gpg_key := gpg_key_url
    gpg_key_basename := gpg_key_basename }

/-- `machine_roles` of `nick_home_box_mint.py`. -/
def machineRoles : List (String × Finset String) :=
  [("jay", {"common", "gnome", "home", "laptop", "work"}),
   ("jake", {"common", "mate", "laptop", "work"}),
   ("missy", {"common", "gnome", "laptop", "work"}),
   ("ogg", {"common", "mate", "home"}),
   ("vimes", {"common", "games", "home", "laptop", "nscde-deps", "xfce"})]

/-- `dnf_repos` of `nick_home_box_mint.py`. -/
def dnfRepos : List (String × Repo) :=
  [("vscode",
    yumrepo
      ["deb [arch=amd64,arm64,armhf signed-by=/etc/apt/keyrings/packages.microsoft.gpg] https://packages.microsoft.com/repos/code stable main"]
      "vscode"
      "https://packages.microsoft.com/keys/microsoft.asc"
      "packages.microsoft.gpg")]

/-- `package_dnf_repos` of `nick_home_box_mint.py`. -/
def packageDnfRepos : List (String × Finset String) :=
  [("code", {"vscode"})]

/-- `flatpaks` of `nick_home_box_mint.py` (the gnome and work sets are
empty: their members are commented out). -/
def flatpaksCat : List (String × Finset String) :=
  [("common", {"com.github.tchx84.Flatseal"}),
   ("gnome", ∅),
   ("work", ∅)]

/-- `roles` of `nick_home_box_mint.py`. -/
def rolesCat : List (String × Finset String) :=
  [("common", {"emacs", "fd-find", "hplip-gui", "htop", "python3-pip",
               "python3-mypy", "ripgrep", "seahorse", "stow"}),
   ("games", {"mono-devel", "steam"}),
   ("cinnamon", {"nemo-seahorse"}),
   ("gnome", {"chrome-gnome-shell", "gnome-power-manager", "gnome-tweaks",
              "seahorse-nautilus"}),
   ("mate", {"caja-seahorse", "dconf-editor"}),
   ("nscde-deps",
    {"cbatticon", "fvwm", "fvwm-icons", "gkrellm", "gtk3-nocsd",
     "imagemagick", "ksh", "libfile-mimeinfo-perl", "libstroke0", "pnmixer",
     "python3", "python3-pyqt5", "python3-xdg", "python3-yaml",
     "qt5-style-plugins", "qt5ct", "rofi", "stalonetray", "x11-utils",
     "x11-xserver-utils", "xclip", "xdotool", "xscreensaver", "xsettingsd",
     "xterm"}),
   ("home", {"code", "deja-dup", "keepassxc", "neovim", "syncthing",
             "vim-gtk"}),
   ("laptop", {"powertop"}),
   ("lazyscan-deps",
    {"ImageMagick", "perl(App::cpanminus)", "perl(autodie)",
     "perl(Exporter::Easy)", "perl(Number::Range)", "perl(failures)",
     "perl(File::Slurp)", "perl(List::MoreUtils)", "perl(local::lib)",
     "perl(LockFile::Simple)", "perl(Moo)", "perl(Tk)", "perl(Try::Tiny)",
     "sane-backends", "xterm"}),
   ("nvidia", {"akmod-nvidia"}),
   ("work", {"emacs", "code", "git", "kwrite", "keepassxc", "neovim", "npm",
             "okular", "vim", "wireguard-tools", "xournalpp"}),
   ("xfce", {"gigolo"})]

/-- `dependent_packages` of `nick_home_box_mint.py`. -/
def dependentPackages : List (String × Finset String) :=
  [("nextcloud-client-nautilus", {"gnome", "work"}),
   ("caja-nextcloud", {"cinnamon", "work"})]

/-- `packages_for_individual_roles` of `nick_home_box_mint.py`. -/
def packagesForIndividualRoles (requested : Finset String) : Option (Finset String) :=
  BoxBuild.packagesForIndividualRoles rolesCat requested

/-- `packages_for_role_combinations` of `nick_home_box_mint.py`. -/
def packagesForRoleCombinations (requested : Finset String) : Finset String :=
  BoxBuild.packagesForRoleCombinations dependentPackages requested

/-- `packages_for_roles` of `nick_home_box_mint.py`. -/
def packagesForRoles (requested : Finset String) : Option (Finset String) :=
  BoxBuild.packagesForRoles rolesCat dependentPackages requested

/-- `flatpaks_for_individual_roles` of `nick_home_box_mint.py`. -/
def flatpaksForIndividualRoles (requested : Finset String) : Finset String :=
  BoxBuild.flatpaksForIndividualRoles flatpaksCat requested

/-- `extra_repos_for_packages` of `nick_home_box_mint.py`. -/
def extraReposForPackages (requiredPackages : Finset String) : Option (Multiset Repo) :=
  BoxBuild.extraReposForPackages packageDnfRepos dnfRepos requiredPackages

/-- The exit statuses for one `install_repo` call in the mint variant:
`gpg --dearmor`, `sudo install` of the key, `sudo tee` of the sources list,
`sudo apt update`.  All four run with `check=True` (the `dnf check-update`
status-100 tolerance is commented out in this variant). -/
structure InstallRepoCodes where
  gpgDearmor : Int
  installKey : Int
  tee : Int
  aptUpdate : Int

/-- `install_repo` of `nick_home_box_mint.py` as a function of exit
statuses: every command is checked, no status is tolerated. -/
def installRepo (c : InstallRepoCodes) : Except Int Unit := do
  runChecked c.gpgDearmor
  runChecked c.installKey
  runChecked c.tee
  runChecked c.aptUpdate

/-- The `for repo in extra_repos: install_repo(repo)` loop of the mint
`main`. -/
def installRepoLoop : List InstallRepoCodes → Except Int Unit
  | [] => .ok ()
  | c :: rest => do
    installRepo c
    installRepoLoop rest

/-- Exit statuses for the non-repo effectors of one mint `main` run:
`dnf(packages)` runs `apt-get update` then `apt-get install` when the
package set is nonempty, then the two flatpak commands as in the other
variant. -/
structure EffectorCodes where
  repoCodes : List InstallRepoCodes
  aptGetUpdate : Int
  aptGetInstall : Int
  flatpakRemoteAdd : Int
  flatpakInstall : Int

/-- The effector sequence of the mint `main` after resolution. -/
def effectorRun (e : EffectorCodes) (hasPackages hasFlatpaks : Bool) : Except Int Unit := do
  installRepoLoop e.repoCodes
  if hasPackages then do
    runChecked e.aptGetUpdate
    runChecked e.aptGetInstall
  else pure ()
  runChecked e.flatpakRemoteAdd
  if hasFlatpaks then runChecked e.flatpakInstall else pure ()

end Mint

/-! ## main: hostname gate, diagnostic, and run outcome -/

/-- Code-point lexicographic "less or equal" on character lists, the order
Python string comparison (and hence `sorted`) uses. -/
def strLeB : List Char → List Char → Bool
  | [], _ => true
  | _ :: _, [] => false
  | a :: as, b :: bs => a.toNat < b.toNat || (a = b && strLeB as bs)

/-- Python string `<=` as a proposition. -/
def strLe (a b : String) : Prop := strLeB a.data b.data = true

instance (a b : String) : Decidable (strLe a b) := by
  unfold strLe
  infer_instance

/-- Python `sorted(machine_roles.keys())` (lexicographic, ascending,
comparing strings by code point). -/
def sortedKeys {α : Type} (cat : List (String × α)) : List String :=
  List.insertionSort strLe (cat.map Prod.fst)

/-- Python `repr` of a list of strings, as interpolated by `{...!r}`:
single-quoted items separated by a comma and space, in square brackets.
(The hostname keys contain no quotes or escapes.) -/
def pyReprStrList (l : List String) : String :=
  "[" ++ String.intercalate ", " (l.map (fun s => "\x27" ++ s ++ "\x27")) ++ "]"

/-- The f-string passed to `heredoc` in `main` when the hostname is not
declared: `machine_name` and the repr of the sorted hostname list are
interpolated into the indented template (identical in both variants). -/
def unknownTemplate (machine_name listRepr : String) : String :=
  "\n" ++ "            Hostname " ++ machine_name ++
  " not declared in machine_roles" ++ "\n" ++
  "            You need to either:" ++ "\n" ++
  "                * declare roles for that hostname in that variable" ++ "\n" ++
  "                * set your hostname using \x60hostnamectl hostname <intended-hostname>" ++ "\n" ++
  "            Valid hostnames are: " ++ listRepr ++ "\n" ++
  "            "

/-- The dedented diagnostic `heredoc` produces from `unknownTemplate`
for a hostname free of line-break characters. -/
def unknownMessage (machine_name listRepr : String) : String :=
  "Hostname " ++ (machine_name ++ (" not declared in machine_roles\n" ++
    ("You need to either:\n" ++ ("    * declare roles for that hostname in that variable\n" ++
      ("    * set your hostname using \x60hostnamectl hostname <intended-hostname>\n" ++
        ("Valid hostnames are: " ++ (listRepr ++ "\n")))))))

/-- No character of `s` is a `str.splitlines` line boundary. -/
def noLineBreaks (s : String) : Prop :=
  ∀ c ∈ s.data, pyIsLineBreak c = false

instance (s : String) : Decidable (noLineBreaks s) := by
  unfold noLineBreaks
  infer_instance

/-- Python `gethostname().split(chr(46))[0]`: the hostname up to (and
excluding) the first dot. -/
def leadingLabel (s : String) : String :=
  ⟨s.data.takeWhile (fun c => c ≠ '.')⟩

/-- What a run of `main` amounts to, as decided by the resolution logic:
a fatal configuration error (diagnostic written, `sys.exit(code)`), an
uncaught Python exception, or an installation plan handed to the effectors.
No installation step is reached in the first two cases. -/
inductive RunOutcome (ρ : Type) where
  | fatalConfig (diagnostic : String) (exitCode : Nat)
  | pythonCrash
  | installPlan (repos : Multiset ρ) (packages : Finset String) (flatpaks : Finset String)
deriving DecidableEq

namespace Nhb

/-- `sorted(machine_roles.keys())` for `nick_home_box.py`. -/
def validHostnamesSorted : List String := sortedKeys machineRoles

/-- `main` of `nick_home_box.py` as a function of the hostname string
returned by `gethostname()` (used unmodified as `machine_name`). -/
def mainOutcome (hostname : String) : RunOutcome Repo :=
  match lookupStr machineRoles hostname with
  | none =>
    match heredoc (unknownTemplate hostname (pyReprStrList validHostnamesSorted)) with
    | some msg => .fatalConfig msg 4
    | none => .pythonCrash
  | some requestedRoles =>
    match packagesForRoles requestedRoles with
    | none => .pythonCrash
    | some requiredPackages =>
      match extraReposForPackages requiredPackages with
      | none => .pythonCrash
      | some extraRepos =>
        .installPlan extraRepos requiredPackages
          (flatpaksForIndividualRoles requestedRoles)

end Nhb

namespace Mint

/-- `sorted(machine_roles.keys())` for `nick_home_box_mint.py`. -/
def validHostnamesSorted : List String := sortedKeys machineRoles

/-- `main` of `nick_home_box_mint.py` as a function of the hostname string:
`machine_name = gethostname().split(chr(46))[0]`.  (The `role_early_hooks`
lists are all empty, so the early hooks contribute nothing.) -/
def mainOutcome (hostname : String) : RunOutcome Repo :=
  match lookupStr machineRoles (leadingLabel hostname) with
  | none =>
    match heredoc (unknownTemplate (leadingLabel hostname)
        (pyReprStrList validHostnamesSorted)) with
    | some msg => .fatalConfig msg 4
    | none => .pythonCrash
  | some requestedRoles =>
    match packagesForRoles requestedRoles with
    | none => .pythonCrash
    | some requiredPackages =>
      match extraReposForPackages requiredPackages with
      | none => .pythonCrash
      | some extraRepos =>
        .installPlan extraRepos requiredPackages
          (flatpaksForIndividualRoles requestedRoles)

end Mint

/-! ## Lemmas: dictionary lookup and the resolution engine -/

theorem lookupStr_mem {α : Type} (l : List (String × α)) (k : String) (v : α)
    (h : lookupStr l k = some v) : (k, v) ∈ l := by
  induction l with
  | nil => simp [lookupStr] at h
  | cons kv rest ih =>
    obtain ⟨k0, w⟩ := kv
    rw [lookupStr] at h
    split at h
    · rename_i heq
      cases h
      subst heq
      exact List.mem_cons_self _ _
    · exact List.mem_cons_of_mem _ (ih h)

theorem notMem_lookup_getD (cat : List (String × Finset String)) (p : String)
    (hall : ∀ kv ∈ cat, p ∉ kv.2) (r : String) :
    p ∉ (lookupStr cat r).getD ∅ := by
  cases h : lookupStr cat r with
  | none => simp
  | some v => simpa using hall _ (lookupStr_mem cat r v h)

theorem lookup_getD_subset (cat : List (String × Finset String)) (T : Finset String)
    (hall : ∀ kv ∈ cat, kv.2 ⊆ T) (r : String) :
    (lookupStr cat r).getD ∅ ⊆ T := by
  cases h : lookupStr cat r with
  | none => simp
  | some v => simpa using hall _ (lookupStr_mem cat r v h)

theorem packagesForRoles_isSome_iff (rc dep : List (String × Finset String))
    (R : Finset String) :
    (packagesForRoles rc dep R).isSome ↔ ∀ r ∈ R, (lookupStr rc r).isSome := by
  by_cases hc : ∀ r ∈ R, (lookupStr rc r).isSome <;>
    simp [packagesForRoles, packagesForIndividualRoles, hc]

theorem mem_of_packagesForRoles (rc dep : List (String × Finset String))
    (R P : Finset String) (h : packagesForRoles rc dep R = some P) (p : String) :
    p ∈ P ↔ (∃ r ∈ R, p ∈ (lookupStr rc r).getD ∅) ∨
      (∃ pr ∈ dep, pr.2 ⊆ R ∧ pr.1 = p) := by
  unfold packagesForRoles packagesForIndividualRoles at h
  split at h
  · cases h
    simp only [packagesForRoleCombinations, Finset.mem_union, Finset.mem_biUnion,
      List.mem_toFinset, List.mem_map, List.mem_filter]
    constructor
    · rintro (⟨r, hr, hpr⟩ | ⟨pr, ⟨hmem, hsub⟩, hfst⟩)
      · exact Or.inl ⟨r, hr, hpr⟩
      · exact Or.inr ⟨pr, hmem, by simpa using hsub, hfst⟩
    · rintro (⟨r, hr, hpr⟩ | ⟨pr, hmem, hsub, hfst⟩)
      · exact Or.inl ⟨r, hr, hpr⟩
      · exact Or.inr ⟨pr, ⟨hmem, by simpa using hsub⟩, hfst⟩
  · cases h

/-! ## Lemmas: splitLines, prefixes, heredoc -/

theorem data_mk (l : List Char) : (⟨l⟩ : String).data = l := rfl

theorem splitStep_newline (L : List (List Char)) : splitStep '\n' L = ['\n'] :: L := by
  unfold splitStep
  rw [if_pos (by decide : pyIsLineBreak '\n' = true),
    if_neg (by decide : ¬('\n' = '\r'))]

theorem foldr_splitStep_chunk (a : List Char) (h : ∀ c ∈ a, pyIsLineBreak c = false)
    (l : List Char) (rest : List (List Char)) :
    a.foldr splitStep (l :: rest) = (a ++ l) :: rest := by
  induction a with
  | nil => simp
  | cons c a ih =>
    have hc := h c (by simp)
    have hrest := ih (fun x hx => h x (List.mem_cons_of_mem _ hx))
    rw [List.foldr_cons, hrest]
    unfold splitStep
    rw [if_neg (by simp [hc])]
    simp

theorem foldr_splitStep_noBreak_nil (t : List Char)
    (ht : ∀ c ∈ t, pyIsLineBreak c = false) (hne : t ≠ []) :
    t.foldr splitStep [] = [t] := by
  induction t with
  | nil => exact absurd rfl hne
  | cons c t ih =>
    have hc := ht c (by simp)
    rw [List.foldr_cons]
    cases t with
    | nil =>
      show splitStep c [] = [[c]]
      unfold splitStep
      rw [if_neg (by simp [hc])]
    | cons d t' =>
      rw [ih (fun x hx => ht x (List.mem_cons_of_mem _ hx)) (by simp)]
      unfold splitStep
      rw [if_neg (by simp [hc])]

theorem noLineBreaks_append (a b : String) (ha : noLineBreaks a) (hb : noLineBreaks b) :
    noLineBreaks (a ++ b) := by
  intro c hc
  rw [String.data_append] at hc
  rcases List.mem_append.mp hc with h | h
  · exact ha c h
  · exact hb c h

theorem splitLines_sixLines (s1 s2 s3 s4 s5 t : String)
    (h1 : noLineBreaks s1) (h2 : noLineBreaks s2) (h3 : noLineBreaks s3)
    (h4 : noLineBreaks s4) (h5 : noLineBreaks s5) (ht : noLineBreaks t)
    (hne : t.data ≠ []) :
    splitLines ("\n" ++ s1 ++ "\n" ++ s2 ++ "\n" ++ s3 ++ "\n" ++ s4 ++ "\n" ++
        s5 ++ "\n" ++ t) =
      ["\n", s1 ++ "\n", s2 ++ "\n", s3 ++ "\n", s4 ++ "\n", s5 ++ "\n", t] := by
  unfold splitLines
  have hnl : ("\n" : String).data = ['\n'] := rfl
  simp only [String.data_append, hnl, List.append_assoc, List.singleton_append,
    List.foldr_cons, List.foldr_append, splitStep_newline,
    foldr_splitStep_chunk s1.data h1, foldr_splitStep_chunk s2.data h2,
    foldr_splitStep_chunk s3.data h3, foldr_splitStep_chunk s4.data h4,
    foldr_splitStep_chunk s5.data h5,
    foldr_splitStep_noBreak_nil t.data ht hne,
    List.map_cons, List.map_nil]
  simp only [List.cons.injEq, and_true]
  refine ⟨trivial, ?_, ?_, ?_, ?_, ?_⟩ <;>
    (apply String.ext; simp [String.data_append, data_mk])

theorem listStartsWith_append (p r : List Char) : listStartsWith p (p ++ r) = true := by
  induction p with
  | nil => rfl
  | cons c p ih => simpa [listStartsWith] using ih

theorem pyRemovePrefix_append (p r : List Char) : pyRemovePrefix p (p ++ r) = r := by
  simp [pyRemovePrefix, listStartsWith_append]

theorem heredocLines_seven (first l1 l2 l3 l4 l5 last : String)
    (hf : pyIsSpaceStr first = true) (hl : pyIsSpaceStr last = true)
    (hstart : ([l1, l2, l3, l4, l5]).all
      (fun l => listStartsWith (rstripNl last).data l.data) = true) :
    heredocLines [first, l1, l2, l3, l4, l5, last] =
      some ⟨([l1, l2, l3, l4, l5].map
        (fun l => pyRemovePrefix (rstripNl last).data l.data)).flatten⟩ := by
  have hLast : ([l1, l2, l3, l4, l5, last] : List String).getLastD first = last := by
    simp
  unfold heredocLines
  simp only [hLast, List.dropLast, hf, hl, hstart, if_true]

theorem template_eq (n r : String) :
    unknownTemplate n r =
      "\n" ++ ("            Hostname " ++ n ++ " not declared in machine_roles") ++
      "\n" ++ "            You need to either:" ++
      "\n" ++ "                * declare roles for that hostname in that variable" ++
      "\n" ++ "                * set your hostname using \x60hostnamectl hostname <intended-hostname>" ++
      "\n" ++ ("            Valid hostnames are: " ++ r) ++
      "\n" ++ "            " := by
  simp only [unknownTemplate, String.append_assoc]

theorem splitLines_unknownTemplate (n r : String)
    (hn : noLineBreaks n) (hr : noLineBreaks r) :
    splitLines (unknownTemplate n r) =
      ["\n",
       "            Hostname " ++ n ++ " not declared in machine_roles" ++ "\n",
       "            You need to either:" ++ "\n",
       "                * declare roles for that hostname in that variable" ++ "\n",
       "                * set your hostname using \x60hostnamectl hostname <intended-hostname>" ++ "\n",
       ("            Valid hostnames are: " ++ r) ++ "\n",
       "            "] := by
  rw [template_eq]
  exact splitLines_sixLines _ _ _ _ _ _
    (noLineBreaks_append _ _ (noLineBreaks_append _ _ (by decide) hn) (by decide))
    (by decide) (by decide) (by decide)
    (noLineBreaks_append _ _ (by decide) hr)
    (by decide) (by decide)

theorem heredoc_unknownTemplate (n r : String)
    (hn : noLineBreaks n) (hr : noLineBreaks r) :
    heredoc (unknownTemplate n r) = some (unknownMessage n r) := by
  unfold heredoc
  rw [splitLines_unknownTemplate n r hn hr]
  have hrs : rstripNl "            " = "            " := by decide
  have e1 : ("            Hostname " : String).data
      = ("            " : String).data ++ ("Hostname " : String).data := by decide
  have e5 : ("            Valid hostnames are: " : String).data
      = ("            " : String).data ++ ("Valid hostnames are: " : String).data := by
    decide
  have hs1 : listStartsWith ("            " : String).data
      ("            Hostname " ++ n ++ " not declared in machine_roles" ++ "\n").data
      = true := by
    simp only [String.data_append, e1, List.append_assoc]
    exact listStartsWith_append _ _
  have hs5 : listStartsWith ("            " : String).data
      (("            Valid hostnames are: " ++ r) ++ "\n").data = true := by
    simp only [String.data_append, e5, List.append_assoc]
    exact listStartsWith_append _ _
  have hstart : ([("            Hostname " ++ n ++ " not declared in machine_roles" ++ "\n" : String),
      "            You need to either:" ++ "\n",
      "                * declare roles for that hostname in that variable" ++ "\n",
      "                * set your hostname using \x60hostnamectl hostname <intended-hostname>" ++ "\n",
      ("            Valid hostnames are: " ++ r) ++ "\n"]).all
      (fun l => listStartsWith (rstripNl "            ").data l.data) = true := by
    rw [hrs]
    simp only [List.all_cons, List.all_nil, Bool.and_eq_true]
    exact ⟨hs1, by decide, by decide, by decide, hs5, trivial⟩
  rw [heredocLines_seven _ _ _ _ _ _ _ (by decide) (by decide) hstart]
  have i1 : pyRemovePrefix (rstripNl "            ").data
      ("            Hostname " ++ n ++ " not declared in machine_roles" ++ "\n").data
      = ("Hostname " : String).data ++ (n.data ++
        ((" not declared in machine_roles" : String).data ++ ("\n" : String).data)) := by
    rw [hrs]
    simp only [String.data_append, e1, List.append_assoc]
    exact pyRemovePrefix_append _ _
  have i2 : pyRemovePrefix (rstripNl "            ").data
      (("            You need to either:" ++ "\n" : String)).data
      = ("You need to either:\n" : String).data := by decide
  have i3 : pyRemovePrefix (rstripNl "            ").data
      (("                * declare roles for that hostname in that variable" ++ "\n" : String)).data
      = ("    * declare roles for that hostname in that variable\n" : String).data := by
    decide
  have i4 : pyRemovePrefix (rstripNl "            ").data
      (("                * set your hostname using \x60hostnamectl hostname <intended-hostname>" ++ "\n" : String)).data
      = ("    * set your hostname using \x60hostnamectl hostname <intended-hostname>\n" : String).data := by
    decide
  have i5 : pyRemovePrefix (rstripNl "            ").data
      ((("            Valid hostnames are: " ++ r) ++ "\n" : String)).data
      = ("Valid hostnames are: " : String).data ++ (r.data ++ ("\n" : String).data) := by
    rw [hrs]
    simp only [String.data_append, e5, List.append_assoc]
    exact pyRemovePrefix_append _ _
  simp only [List.map_cons, List.map_nil, i1, i2, i3, i4, i5]
  congr 1
  apply String.ext
  simp only [data_mk, unknownMessage, String.data_append, List.flatten_cons,
    List.flatten_nil, List.append_nil, List.append_assoc]
  simp [List.cons_append, List.singleton_append, List.append_assoc]

theorem packagesForRoles_mono (rc dep : List (String × Finset String))
    {R R' P : Finset String} (hsub : R' ⊆ R)
    (h : packagesForRoles rc dep R = some P) :
    ∃ P', packagesForRoles rc dep R' = some P' ∧ P' ⊆ P := by
  have hsome : ∀ r ∈ R, (lookupStr rc r).isSome :=
    (packagesForRoles_isSome_iff rc dep R).mp (by simp [h])
  have hsome' : (packagesForRoles rc dep R').isSome :=
    (packagesForRoles_isSome_iff rc dep R').mpr (fun r hr => hsome r (hsub hr))
  obtain ⟨P', hP'⟩ := Option.isSome_iff_exists.mp hsome'
  refine ⟨P', hP', fun p hp => ?_⟩
  rw [mem_of_packagesForRoles rc dep R' P' hP' p] at hp
  rw [mem_of_packagesForRoles rc dep R P h p]
  rcases hp with ⟨r, hr, hpr⟩ | ⟨pr, hmem, hsub2, hfst⟩
  · exact Or.inl ⟨r, hsub hr, hpr⟩
  · exact Or.inr ⟨pr, hmem, hsub2.trans hsub, hfst⟩

/-! ## Lemmas: repo aggregation totality, main outcomes -/

theorem extraRepoNames_subset (cat : List (String × Finset String)) (T : Finset String)
    (hall : ∀ kv ∈ cat, kv.2 ⊆ T) (P : Finset String) :
    extraRepoNames cat P ⊆ T := by
  intro t ht
  rw [extraRepoNames, Finset.mem_biUnion] at ht
  obtain ⟨p, _, hm⟩ := ht
  exact lookup_getD_subset cat T hall p hm

theorem Nhb.extraRepos_isSome_nhb (P : Finset String) :
    (Nhb.extraReposForPackages P).isSome := by
  have hsub : extraRepoNames Nhb.packageDnfRepos P ⊆ {"vscode"} :=
    extraRepoNames_subset _ _ (by decide) P
  rw [Nhb.extraReposForPackages, BoxBuild.extraReposForPackages, if_pos]
  · rfl
  · intro t ht
    have := hsub ht
    rw [Finset.mem_singleton] at this
    subst this
    decide

theorem Mint.extraRepos_isSome_mint (P : Finset String) :
    (Mint.extraReposForPackages P).isSome := by
  have hsub : extraRepoNames Mint.packageDnfRepos P ⊆ {"vscode"} :=
    extraRepoNames_subset _ _ (by decide) P
  rw [Mint.extraReposForPackages, BoxBuild.extraReposForPackages, if_pos]
  · rfl
  · intro t ht
    have := hsub ht
    rw [Finset.mem_singleton] at this
    subst this
    decide

theorem noLineBreaks_leadingLabel (s : String) (hs : noLineBreaks s) :
    noLineBreaks (leadingLabel s) := by
  intro c hc
  rw [leadingLabel, data_mk] at hc
  exact hs c ((List.takeWhile_sublist _).mem hc)

theorem Nhb.mainOutcome_unknown_nhb (h : String) (hnb : noLineBreaks h)
    (hlk : lookupStr Nhb.machineRoles h = none) :
    Nhb.mainOutcome h =
      .fatalConfig (unknownMessage h (pyReprStrList Nhb.validHostnamesSorted)) 4 := by
  unfold Nhb.mainOutcome
  rw [hlk, heredoc_unknownTemplate h _ hnb (by decide)]

theorem Mint.mainOutcome_unknown_mint (h : String) (hnb : noLineBreaks (leadingLabel h))
    (hlk : lookupStr Mint.machineRoles (leadingLabel h) = none) :
    Mint.mainOutcome h =
      .fatalConfig (unknownMessage (leadingLabel h)
        (pyReprStrList Mint.validHostnamesSorted)) 4 := by
  unfold Mint.mainOutcome
  rw [hlk, heredoc_unknownTemplate _ _ hnb (by decide)]

theorem Nhb.mainOutcome_declared_nhb (h : String) (rs : Finset String)
    (hlk : lookupStr Nhb.machineRoles h = some rs) :
    ∃ repos pkgs fps, Nhb.mainOutcome h = .installPlan repos pkgs fps := by
  have hmem := lookupStr_mem _ _ _ hlk
  have hpk : (Nhb.packagesForRoles rs).isSome := by
    rw [Nhb.machineRoles] at hmem
    simp only [List.mem_cons, List.mem_singleton, Prod.mk.injEq,
      List.not_mem_nil, or_false] at hmem
    rcases hmem with ⟨_, h2⟩ | ⟨_, h2⟩ | ⟨_, h2⟩ | ⟨_, h2⟩ <;> subst h2 <;> decide
  obtain ⟨pkgs, hpkgs⟩ := Option.isSome_iff_exists.mp hpk
  obtain ⟨repos, hrepos⟩ := Option.isSome_iff_exists.mp (Nhb.extraRepos_isSome_nhb pkgs)
  refine ⟨repos, pkgs, Nhb.flatpaksForIndividualRoles rs, ?_⟩
  unfold Nhb.mainOutcome
  rw [hlk]
  dsimp only
  rw [hpkgs]
  dsimp only
  rw [hrepos]

theorem Mint.mainOutcome_declared_mint (h : String) (rs : Finset String)
    (hlk : lookupStr Mint.machineRoles (leadingLabel h) = some rs) :
    ∃ repos pkgs fps, Mint.mainOutcome h = .installPlan repos pkgs fps := by
  have hmem := lookupStr_mem _ _ _ hlk
  have hpk : (Mint.packagesForRoles rs).isSome := by
    rw [Mint.machineRoles] at hmem
    simp only [List.mem_cons, List.mem_singleton, Prod.mk.injEq,
      List.not_mem_nil, or_false] at hmem
    rcases hmem with ⟨_, h2⟩ | ⟨_, h2⟩ | ⟨_, h2⟩ | ⟨_, h2⟩ | ⟨_, h2⟩ <;>
      subst h2 <;> decide
  obtain ⟨pkgs, hpkgs⟩ := Option.isSome_iff_exists.mp hpk
  obtain ⟨repos, hrepos⟩ := Option.isSome_iff_exists.mp (Mint.extraRepos_isSome_mint pkgs)
  refine ⟨repos, pkgs, Mint.flatpaksForIndividualRoles rs, ?_⟩
  unfold Mint.mainOutcome
  rw [hlk]
  dsimp only
  rw [hpkgs]
  dsimp only
  rw [hrepos]

theorem runChecked_ok_iff (code : Int) : runChecked code = .ok () ↔ code = 0 := by
  unfold runChecked
  split
  · simp_all
  · simp_all

theorem Nhb.installRepo_ok_iff_nhb (c : Nhb.InstallRepoCodes) :
    Nhb.installRepo c = .ok () ↔
      (c.rpmImport = 0 ∧ c.tee = 0 ∧ (c.checkUpdate = 0 ∨ c.checkUpdate = 100)) := by
  unfold Nhb.installRepo runChecked
  by_cases h1 : c.rpmImport = 0 <;> by_cases h2 : c.tee = 0 <;>
    by_cases h3 : c.checkUpdate = 100 <;> by_cases h4 : c.checkUpdate = 0 <;>
    simp [h1, h2, h3, h4, Bind.bind, Except.bind, Pure.pure, Except.pure]

theorem Mint.installRepo_ok_iff_mint (c : Mint.InstallRepoCodes) :
    Mint.installRepo c = .ok () ↔
      (c.gpgDearmor = 0 ∧ c.installKey = 0 ∧ c.tee = 0 ∧ c.aptUpdate = 0) := by
  unfold Mint.installRepo runChecked
  by_cases h1 : c.gpgDearmor = 0 <;> by_cases h2 : c.installKey = 0 <;>
    by_cases h3 : c.tee = 0 <;> by_cases h4 : c.aptUpdate = 0 <;>
    simp [h1, h2, h3, h4, Bind.bind, Except.bind, Pure.pure, Except.pure]

theorem Nhb.installRepoLoop_ok_iff (l : List Nhb.InstallRepoCodes) :
    Nhb.installRepoLoop l = .ok () ↔ ∀ c ∈ l, Nhb.installRepo c = .ok () := by
  induction l with
  | nil => simp [Nhb.installRepoLoop]
  | cons c rest ih =>
    rw [Nhb.installRepoLoop]
    cases h : Nhb.installRepo c with
    | error e => simp [Bind.bind, Except.bind, h]
    | ok v =>
      obtain rfl : v = () := rfl
      simp [Bind.bind, Except.bind, h, ih]

theorem Nhb.effectorRun_ok_iff (e : Nhb.EffectorCodes) (hp hf : Bool) :
    Nhb.effectorRun e hp hf = .ok () ↔
      ((∀ c ∈ e.repoCodes, Nhb.installRepo c = .ok ()) ∧
       (hp = true → e.dnfInstall = 0) ∧ e.flatpakRemoteAdd = 0 ∧
       (hf = true → e.flatpakInstall = 0)) := by
  rw [← Nhb.installRepoLoop_ok_iff]
  unfold Nhb.effectorRun
  cases hL : Nhb.installRepoLoop e.repoCodes with
  | error err => simp [Bind.bind, Except.bind, hL]
  | ok v =>
    obtain rfl : v = () := rfl
    cases hp <;> cases hf <;>
      by_cases h1 : e.dnfInstall = 0 <;> by_cases h2 : e.flatpakRemoteAdd = 0 <;>
      by_cases h3 : e.flatpakInstall = 0 <;>
      simp [Bind.bind, Except.bind, Pure.pure, Except.pure, hL, h1, h2, h3, runChecked]

theorem takeWhile_ne_dot_append (a : List Char) (h : '.' ∉ a) (b : List Char) :
    (a ++ '.' :: b).takeWhile (fun c => c ≠ '.') = a := by
  induction a with
  | nil => simp [List.takeWhile_cons]
  | cons c a ih =>
    have hc : c ≠ '.' := fun hcc => h (hcc ▸ List.mem_cons_self c a)
    have ha : '.' ∉ a := fun hmem => h (List.mem_cons_of_mem c hmem)
    rw [List.cons_append, List.takeWhile_cons, if_pos (by simp [hc]), ih ha]

theorem takeWhile_ne_dot_self (a : List Char) (h : '.' ∉ a) :
    a.takeWhile (fun c => c ≠ '.') = a := by
  induction a with
  | nil => rfl
  | cons c a ih =>
    have hc : c ≠ '.' := fun hcc => h (hcc ▸ List.mem_cons_self c a)
    have ha : '.' ∉ a := fun hmem => h (List.mem_cons_of_mem c hmem)
    rw [List.takeWhile_cons, if_pos (by simp [hc]), ih ha]

theorem leadingLabel_append_domain (name domain : String) (h : '.' ∉ name.data) :
    leadingLabel (name ++ "." ++ domain) = name := by
  apply String.ext
  rw [leadingLabel, data_mk]
  have hdata : (name ++ "." ++ domain).data = name.data ++ ('.' :: domain.data) := by
    simp [String.data_append]
  rw [hdata]
  exact takeWhile_ne_dot_append name.data h domain.data

theorem leadingLabel_no_dot (name : String) (h : '.' ∉ name.data) :
    leadingLabel name = name := by
  apply String.ext
  rw [leadingLabel, data_mk]
  exact takeWhile_ne_dot_self name.data h

theorem extraRepos_singleton_cases {ρ : Type} [Inhabited ρ] [DecidableEq ρ]
    (pkgCat : List (String × Finset String)) (repoCat : List (String × ρ))
    (tag : String) (hall : ∀ kv ∈ pkgCat, kv.2 ⊆ {tag})
    (hts : (lookupStr repoCat tag).isSome)
    (P : Finset String) (l : Multiset ρ)
    (h : extraReposForPackages pkgCat repoCat P = some l) :
    (extraRepoNames pkgCat P = ∅ ∧ l = 0) ∨
    (extraRepoNames pkgCat P = {tag} ∧ l = {(lookupStr repoCat tag).getD default}) := by
  have hsub := extraRepoNames_subset pkgCat {tag} hall P
  rw [Finset.subset_singleton_iff] at hsub
  rw [extraReposForPackages] at h
  dsimp only at h
  rcases hsub with he | he <;> rw [he] at h
  · left
    refine ⟨he, ?_⟩
    simpa using h.symm
  · right
    refine ⟨he, ?_⟩
    rw [if_pos (by simpa using hts)] at h
    simpa using h.symm

theorem mem_extraRepoNames_of_lookup
    (pkgCat : List (String × Finset String)) (p : String) (S : Finset String)
    (hp : lookupStr pkgCat p = some S) (tag : String) (ht : tag ∈ S)
    (P : Finset String) (hc : p ∈ P) :
    tag ∈ extraRepoNames pkgCat P := by
  rw [extraRepoNames, Finset.mem_biUnion]
  exact ⟨p, hc, by rw [hp]; exact ht⟩

theorem extraRepos_insert_none {ρ : Type} [Inhabited ρ]
    (pkgCat : List (String × Finset String)) (repoCat : List (String × ρ))
    (p : String) (P : Finset String) (hp : lookupStr pkgCat p = none) :
    extraReposForPackages pkgCat repoCat (insert p P) =
      extraReposForPackages pkgCat repoCat P := by
  have hnames : extraRepoNames pkgCat (insert p P) = extraRepoNames pkgCat P := by
    rw [extraRepoNames, extraRepoNames, Finset.biUnion_insert, hp]
    simp
  rw [extraReposForPackages, extraReposForPackages]
  dsimp only
  rw [hnames]

/-! ## Claim theorems -/

/-- C10: every repo tag occurring in a value set of `package_dnf_repos` is a
key of `dnf_repos`, so `extra_repos_for_packages` never hits a missing key:
it is defined (`isSome`) on every package set, in both variants. -/
theorem claim_C10_extraRepos_total :
    (∀ kv ∈ Nhb.packageDnfRepos, ∀ t ∈ kv.2, (lookupStr Nhb.dnfRepos t).isSome) ∧
    (∀ kv ∈ Mint.packageDnfRepos, ∀ t ∈ kv.2, (lookupStr Mint.dnfRepos t).isSome) ∧
    (∀ P : Finset String, (Nhb.extraReposForPackages P).isSome) ∧
    (∀ P : Finset String, (Mint.extraReposForPackages P).isSome) :=
  ⟨by decide, by decide, Nhb.extraRepos_isSome_nhb, Mint.extraRepos_isSome_mint⟩

/-- C3: `packages_for_roles` is monotonic wherever defined — if `R' ⊆ R` and
`packages_for_roles R` is defined then `packages_for_roles R'` is defined and
a subset of it; adding roles only adds packages.  Both variants. -/
theorem claim_C3_monotonic :
    (∀ R R' P : Finset String, R' ⊆ R → Nhb.packagesForRoles R = some P →
      ∃ P', Nhb.packagesForRoles R' = some P' ∧ P' ⊆ P) ∧
    (∀ R R' P : Finset String, R' ⊆ R → Mint.packagesForRoles R = some P →
      ∃ P', Mint.packagesForRoles R' = some P' ∧ P' ⊆ P) :=
  ⟨fun _ _ _ hsub h => packagesForRoles_mono _ _ hsub h,
   fun _ _ _ hsub h => packagesForRoles_mono _ _ hsub h⟩

/-- C3 witness: concrete instance at `R' = ∅ ⊆ R = {gnome}` in the Fedora
variant. -/
theorem claim_C3_monotonic_witness :
    ∃ P', Nhb.packagesForRoles ∅ = some P' ∧
      P' ⊆ ({"chrome-gnome-shell", "gnome-tweaks"} : Finset String) :=
  claim_C3_monotonic.1 {"gnome"} ∅ {"chrome-gnome-shell", "gnome-tweaks"}
    (by decide) (by decide)

/-- C8: `flatpaks_for_individual_roles` is exactly the union of the per-role
flatpak sets (`.get` with empty default), it decomposes as the union of its
values on singleton role sets (no cross-role logic), and a role absent from
the flatpak catalog contributes the empty set.  Both variants. -/
theorem claim_C8_flatpaks_union :
    (∀ R : Finset String, Nhb.flatpaksForIndividualRoles R =
      R.biUnion (fun r => (lookupStr Nhb.flatpaksCat r).getD ∅)) ∧
    (∀ R : Finset String, Nhb.flatpaksForIndividualRoles R =
      R.biUnion (fun r => Nhb.flatpaksForIndividualRoles {r})) ∧
    (∀ r : String, lookupStr Nhb.flatpaksCat r = none →
      Nhb.flatpaksForIndividualRoles {r} = ∅) ∧
    (∀ R : Finset String, Mint.flatpaksForIndividualRoles R =
      R.biUnion (fun r => (lookupStr Mint.flatpaksCat r).getD ∅)) ∧
    (∀ R : Finset String, Mint.flatpaksForIndividualRoles R =
      R.biUnion (fun r => Mint.flatpaksForIndividualRoles {r})) ∧
    (∀ r : String, lookupStr Mint.flatpaksCat r = none →
      Mint.flatpaksForIndividualRoles {r} = ∅) := by
  refine ⟨fun R => rfl, fun R => ?_, fun r h => ?_, fun R => rfl, fun R => ?_,
    fun r h => ?_⟩
  · simp [Nhb.flatpaksForIndividualRoles, BoxBuild.flatpaksForIndividualRoles,
      Finset.singleton_biUnion]
  · simp [Nhb.flatpaksForIndividualRoles, BoxBuild.flatpaksForIndividualRoles,
      Finset.singleton_biUnion, h]
  · simp [Mint.flatpaksForIndividualRoles, BoxBuild.flatpaksForIndividualRoles,
      Finset.singleton_biUnion]
  · simp [Mint.flatpaksForIndividualRoles, BoxBuild.flatpaksForIndividualRoles,
      Finset.singleton_biUnion, h]

/-- C8 witness: the unknown role `laptop` contributes no flatpaks in the
Fedora variant. -/
theorem claim_C8_flatpaks_union_witness :
    Nhb.flatpaksForIndividualRoles {"laptop"} = ∅ :=
  claim_C8_flatpaks_union.2.2.1 "laptop" (by decide)

/-- C1 counterexample: `packages_for_roles` is not defined on every role
set — the role `laptop` is not a key of the `roles` catalog of
`nick_home_box.py`, and `packages_for_individual_roles` indexes
`roles[rolename]` directly, so the lookup raises `KeyError` (modelled as
`none`) rather than contributing the empty set. -/
theorem claim_C1_counterexample :
    Nhb.packagesForRoles {"laptop"} = none := by decide

/-- C1 (amended): a role absent from the flatpak catalog contributes no
flatpaks and causes no error; but `packages_for_individual_roles` indexes
the `roles` catalog directly, so `packages_for_roles` raises `KeyError` on
any role set containing a role that is not a key of `roles`: it is defined
exactly on role sets whose members are all keys of `roles`.  Both
variants. -/
theorem claim_C1_unknown_roles :
    (∀ R : Finset String, (Nhb.packagesForRoles R).isSome ↔
      ∀ r ∈ R, (lookupStr Nhb.rolesCat r).isSome) ∧
    (∀ R : Finset String, (Mint.packagesForRoles R).isSome ↔
      ∀ r ∈ R, (lookupStr Mint.rolesCat r).isSome) ∧
    (∀ (r : String) (R : Finset String), lookupStr Nhb.flatpaksCat r = none →
      Nhb.flatpaksForIndividualRoles (insert r R) = Nhb.flatpaksForIndividualRoles R) ∧
    (∀ (r : String) (R : Finset String), lookupStr Mint.flatpaksCat r = none →
      Mint.flatpaksForIndividualRoles (insert r R) = Mint.flatpaksForIndividualRoles R) ∧
    (∀ (r : String) (R : Finset String), lookupStr Nhb.rolesCat r = none →
      Nhb.packagesForRoles (insert r R) = none) ∧
    (∀ (r : String) (R : Finset String), lookupStr Mint.rolesCat r = none →
      Mint.packagesForRoles (insert r R) = none) := by
  refine ⟨fun R => packagesForRoles_isSome_iff _ _ R,
    fun R => packagesForRoles_isSome_iff _ _ R,
    fun r R h => ?_, fun r R h => ?_, fun r R h => ?_, fun r R h => ?_⟩
  · simp [Nhb.flatpaksForIndividualRoles, BoxBuild.flatpaksForIndividualRoles,
      Finset.biUnion_insert, h]
  · simp [Mint.flatpaksForIndividualRoles, BoxBuild.flatpaksForIndividualRoles,
      Finset.biUnion_insert, h]
  · rw [Nhb.packagesForRoles, ← Option.not_isSome_iff_eq_none,
      packagesForRoles_isSome_iff]
    intro hall
    have := hall r (Finset.mem_insert_self r R)
    rw [h] at this
    exact Bool.noConfusion this
  · rw [Mint.packagesForRoles, ← Option.not_isSome_iff_eq_none,
      packagesForRoles_isSome_iff]
    intro hall
    have := hall r (Finset.mem_insert_self r R)
    rw [h] at this
    exact Bool.noConfusion this

/-- C1 witness: concrete instances at the role `laptop` (unknown to the
Fedora catalogs) — it contributes nothing to the flatpak aggregator but
makes the package aggregator raise. -/
theorem claim_C1_unknown_roles_witness :
    Nhb.flatpaksForIndividualRoles (insert "laptop" {"gnome"}) =
      Nhb.flatpaksForIndividualRoles {"gnome"} ∧
    Nhb.packagesForRoles (insert "laptop" {"gnome"}) = none :=
  ⟨claim_C1_unknown_roles.2.2.1 "laptop" {"gnome"} (by decide),
   claim_C1_unknown_roles.2.2.2.2.1 "laptop" {"gnome"} (by decide)⟩

/-- C2: a `dependent_packages` entry `(p, S)` is in the output of
`packages_for_roles R` iff `S ⊆ R`, and removing any single role of `S`
from `R` removes `p`; concretely `nextcloud-client-nautilus` is in the
output for `{gnome, work}` and not for `{gnome}` alone. -/
theorem claim_C2_dependent_packages :
    (∀ pr ∈ Nhb.dependentPackages, ∀ R P : Finset String,
      Nhb.packagesForRoles R = some P →
        ((pr.1 ∈ P ↔ pr.2 ⊆ R) ∧
         ∀ a ∈ pr.2, ∀ P' : Finset String,
           Nhb.packagesForRoles (R.erase a) = some P' → pr.1 ∉ P')) ∧
    (∃ P : Finset String, Nhb.packagesForRoles {"gnome", "work"} = some P ∧
      "nextcloud-client-nautilus" ∈ P) ∧
    (∃ P : Finset String, Nhb.packagesForRoles {"gnome"} = some P ∧
      "nextcloud-client-nautilus" ∉ P) := by
  have hnot : ∀ r : String,
      "nextcloud-client-nautilus" ∉ (lookupStr Nhb.rolesCat r).getD ∅ :=
    notMem_lookup_getD Nhb.rolesCat _ (by decide)
  have hmemIff : ∀ R P : Finset String, Nhb.packagesForRoles R = some P →
      ("nextcloud-client-nautilus" ∈ P ↔ ({"gnome", "work"} : Finset String) ⊆ R) := by
    intro R P h
    rw [mem_of_packagesForRoles _ _ R P h]
    constructor
    · rintro (⟨r, _, hmem⟩ | ⟨pr', hmem', hsub, hfst⟩)
      · exact absurd hmem (hnot r)
      · have : pr' = ("nextcloud-client-nautilus", ({"gnome", "work"} : Finset String)) := by
          rw [Nhb.dependentPackages] at hmem'
          simpa using hmem'
        rw [this] at hsub
        exact hsub
    · intro hsub
      exact Or.inr ⟨("nextcloud-client-nautilus", {"gnome", "work"}), by
        rw [Nhb.dependentPackages]; simp, hsub, rfl⟩
  refine ⟨?_, ?_, ?_⟩
  · intro pr hpr R P h
    have hpr' : pr = ("nextcloud-client-nautilus", ({"gnome", "work"} : Finset String)) := by
      rw [Nhb.dependentPackages] at hpr
      simpa using hpr
    subst hpr'
    refine ⟨hmemIff R P h, ?_⟩
    intro a ha P' h' hmem'
    have hsub : ({"gnome", "work"} : Finset String) ⊆ R.erase a :=
      (hmemIff (R.erase a) P' h').mp hmem'
    exact Finset.not_mem_erase a R (hsub ha)
  · exact ⟨_, rfl, by decide⟩
  · exact ⟨_, rfl, by decide⟩

/-- C2 witness: the general statement instantiated at the catalog entry and
the concrete role set `{gnome, work}`. -/
theorem claim_C2_dependent_packages_witness :
    ("nextcloud-client-nautilus" ∈
        ({"chrome-gnome-shell", "gnome-tweaks", "code", "dotnet-sdk-6.0",
          "epiphany", "gajim", "kwrite", "keepassxc", "neovim",
          "nextcloud-client", "okular", "thunderbird", "thunderbird-wayland",
          "vim-enhanced", "xournalpp", "nextcloud-client-nautilus"} : Finset String) ↔
      ({"gnome", "work"} : Finset String) ⊆ {"gnome", "work"}) ∧
    ∀ a ∈ ({"gnome", "work"} : Finset String), ∀ P' : Finset String,
      Nhb.packagesForRoles (({"gnome", "work"} : Finset String).erase a) = some P' →
        "nextcloud-client-nautilus" ∉ P' :=
  claim_C2_dependent_packages.1
    ("nextcloud-client-nautilus", {"gnome", "work"}) (by decide)
    {"gnome", "work"}
    {"chrome-gnome-shell", "gnome-tweaks", "code", "dotnet-sdk-6.0",
     "epiphany", "gajim", "kwrite", "keepassxc", "neovim", "nextcloud-client",
     "okular", "thunderbird", "thunderbird-wayland", "vim-enhanced",
     "xournalpp", "nextcloud-client-nautilus"} (by decide)

/-- C5: `install_repo` in `nick_home_box.py` succeeds exactly when
`rpm --import` and `tee` exit 0 and `dnf check-update` exits 0 or 100 (the
"updates available" status is treated as success); every command of the mint
`install_repo` and every other checked external command tolerates only
status 0, and a failing component makes the whole effector sequence of
`main` fail. -/
theorem claim_C5_check_update_100 :
    (∀ c : Nhb.InstallRepoCodes, Nhb.installRepo c = .ok () ↔
      (c.rpmImport = 0 ∧ c.tee = 0 ∧ (c.checkUpdate = 0 ∨ c.checkUpdate = 100))) ∧
    (∀ c : Mint.InstallRepoCodes, Mint.installRepo c = .ok () ↔
      (c.gpgDearmor = 0 ∧ c.installKey = 0 ∧ c.tee = 0 ∧ c.aptUpdate = 0)) ∧
    (∀ code : Int, runChecked code = .ok () ↔ code = 0) ∧
    (∀ (e : Nhb.EffectorCodes) (hp hf : Bool),
      Nhb.effectorRun e hp hf = .ok () ↔
        ((∀ c ∈ e.repoCodes, Nhb.installRepo c = .ok ()) ∧
         (hp = true → e.dnfInstall = 0) ∧ e.flatpakRemoteAdd = 0 ∧
         (hf = true → e.flatpakInstall = 0))) :=
  ⟨Nhb.installRepo_ok_iff_nhb, Mint.installRepo_ok_iff_mint, runChecked_ok_iff,
   Nhb.effectorRun_ok_iff⟩

/-- C5 witness: status 100 from the check-update probe is tolerated while
status 1 is fatal, concretely. -/
theorem claim_C5_check_update_100_witness :
    Nhb.installRepo ⟨0, 0, 100⟩ = .ok () ∧ ¬Nhb.installRepo ⟨0, 0, 1⟩ = .ok () ∧
    ¬runChecked 1 = .ok () :=
  ⟨(claim_C5_check_update_100.1 ⟨0, 0, 100⟩).mpr (by decide),
   fun h => by
     have := (claim_C5_check_update_100.1 ⟨0, 0, 1⟩).mp h
     simp at this,
   fun h => by
     have := (claim_C5_check_update_100.2.2.1 1).mp h
     simp at this⟩

/-- C9: on an input whose line split is `first :: mid ++ [last]` (at least
two lines), if the first and last lines are all whitespace and every
interior line starts with the last line stripped of its trailing newline,
`heredoc` returns the concatenation of the interior lines with exactly that
prefix removed from each (line endings preserved as written); if any of
those conditions fails, `heredoc` fails its assertion (returns `none`). -/
theorem claim_C9_heredoc :
    ∀ (s first : String) (mid : List String) (last : String),
      splitLines s = first :: (mid ++ [last]) →
      ((pyIsSpaceStr first = true → pyIsSpaceStr last = true →
        (∀ l ∈ mid, listStartsWith (rstripNl last).data l.data = true) →
        heredoc s =
          some ⟨(mid.map (fun l => l.data.drop (rstripNl last).data.length)).flatten⟩) ∧
       ((pyIsSpaceStr first = false ∨ pyIsSpaceStr last = false ∨
         (∃ l ∈ mid, listStartsWith (rstripNl last).data l.data = false)) →
        heredoc s = none)) := by
  intro s first mid last hsplit
  unfold heredoc
  rw [hsplit]
  unfold heredocLines
  have hlast : (mid ++ [last]).getLastD first = last := by simp
  have hdrop : (mid ++ [last]).dropLast = mid := by simp
  dsimp only
  rw [hlast, hdrop]
  constructor
  · intro hf hl hstart
    rw [if_pos hf, if_pos hl, if_pos (List.all_eq_true.mpr hstart)]
    congr 1
    apply String.ext
    rw [data_mk, data_mk]
    congr 1
    apply List.map_congr_left
    intro l hlmem
    rw [pyRemovePrefix, if_pos (hstart l hlmem)]
  · rintro (hf | hl | ⟨l, hlmem, hfalse⟩)
    · rw [if_neg (by simp [hf])]
    · by_cases hf : pyIsSpaceStr first = true
      · rw [if_pos hf, if_neg (by simp [hl])]
      · rw [if_neg hf]
    · have hall : (mid.all fun l => listStartsWith (rstripNl last).data l.data) = false :=
        List.all_eq_false.mpr ⟨l, hlmem, by simp [hfalse]⟩
      by_cases hf : pyIsSpaceStr first = true
      · by_cases hl2 : pyIsSpaceStr last = true
        · rw [if_pos hf, if_pos hl2, if_neg (by simp [hall])]
        · rw [if_pos hf, if_neg hl2]
      · rw [if_neg hf]

/-- C9 witness: concrete dedent of a two-interior-line block with one-space
indentation, and a concrete assertion failure when an interior line lacks the
common prefix. -/
theorem claim_C9_heredoc_witness :
    heredoc "\n hi:\n  there\n " = some "hi:\n there\n" := by
  have h := (claim_C9_heredoc "\n hi:\n  there\n " "\n" [" hi:\n", "  there\n"] " "
    (by decide)).1 (by decide) (by decide) (by decide)
  rw [h]
  decide

set_option maxRecDepth 16000 in
/-- C4 counterexample: the hostname containing a line break, `"a\nb"`, is
not declared in `machine_roles`, yet the program does not exit with code 4:
the interpolated diagnostic template fails `heredoc`'s indentation
assertion, so the run dies with an uncaught `AssertionError` before
`sys.exit(4)` — in both variants. -/
theorem claim_C4_counterexample :
    lookupStr Nhb.machineRoles "a\nb" = none ∧
    Nhb.mainOutcome "a\nb" = .pythonCrash ∧
    lookupStr Mint.machineRoles (leadingLabel "a\nb") = none ∧
    Mint.mainOutcome "a\nb" = .pythonCrash := by
  refine ⟨by decide, by decide, by decide, by decide⟩

/-- C4 (amended): for any hostname free of line-break characters, an
undeclared hostname makes `main` write the diagnostic — which names the
hostname and embeds the `repr` of the hostname list sorted lexicographically
ascending — and exit with code 4, with no installation step; a declared
hostname never takes this error exit.  The mint variant behaves the same on
the hostname's leading label. -/
theorem claim_C4_unknown_hostname :
    (∀ h : String, noLineBreaks h →
      ((lookupStr Nhb.machineRoles h = none →
        Nhb.mainOutcome h =
          .fatalConfig (unknownMessage h (pyReprStrList Nhb.validHostnamesSorted)) 4 ∧
        (∃ a b, unknownMessage h (pyReprStrList Nhb.validHostnamesSorted) =
          a ++ (h ++ b)) ∧
        (∃ a b, unknownMessage h (pyReprStrList Nhb.validHostnamesSorted) =
          a ++ (pyReprStrList Nhb.validHostnamesSorted ++ b))) ∧
       (∀ rs, lookupStr Nhb.machineRoles h = some rs →
        ∀ m k, Nhb.mainOutcome h ≠ .fatalConfig m k) ∧
       (lookupStr Mint.machineRoles (leadingLabel h) = none →
        Mint.mainOutcome h =
          .fatalConfig (unknownMessage (leadingLabel h)
            (pyReprStrList Mint.validHostnamesSorted)) 4 ∧
        (∃ a b, unknownMessage (leadingLabel h) (pyReprStrList Mint.validHostnamesSorted) =
          a ++ (leadingLabel h ++ b))) ∧
       (∀ rs, lookupStr Mint.machineRoles (leadingLabel h) = some rs →
        ∀ m k, Mint.mainOutcome h ≠ .fatalConfig m k))) ∧
    Nhb.validHostnamesSorted = ["jake", "jay", "missy", "vimes"] ∧
    Mint.validHostnamesSorted = ["jake", "jay", "missy", "ogg", "vimes"] ∧
    List.Pairwise strLe Nhb.validHostnamesSorted ∧
    List.Pairwise strLe Mint.validHostnamesSorted ∧
    Nhb.validHostnamesSorted.Perm (Nhb.machineRoles.map Prod.fst) ∧
    Mint.validHostnamesSorted.Perm (Mint.machineRoles.map Prod.fst) := by
  refine ⟨?_, by decide, by decide, by decide, by decide,
    List.perm_insertionSort strLe _, List.perm_insertionSort strLe _⟩
  intro h hnb
  refine ⟨?_, ?_, ?_, ?_⟩
  · intro hlk
    refine ⟨Nhb.mainOutcome_unknown_nhb h hnb hlk,
      ⟨"Hostname ", " not declared in machine_roles\n" ++
        ("You need to either:\n" ++ ("    * declare roles for that hostname in that variable\n" ++
          ("    * set your hostname using \x60hostnamectl hostname <intended-hostname>\n" ++
            ("Valid hostnames are: " ++ (pyReprStrList Nhb.validHostnamesSorted ++ "\n"))))),
        rfl⟩, ?_⟩
    refine ⟨"Hostname " ++ (h ++ (" not declared in machine_roles\n" ++
      ("You need to either:\n" ++ ("    * declare roles for that hostname in that variable\n" ++
        ("    * set your hostname using \x60hostnamectl hostname <intended-hostname>\n" ++
          "Valid hostnames are: "))))), "\n", ?_⟩
    simp only [unknownMessage, String.append_assoc]
  · intro rs hlk m k
    obtain ⟨repos, pkgs, fps, heq⟩ := Nhb.mainOutcome_declared_nhb h rs hlk
    rw [heq]
    exact fun hcon => RunOutcome.noConfusion hcon
  · intro hlk
    have hnb' := noLineBreaks_leadingLabel h hnb
    refine ⟨Mint.mainOutcome_unknown_mint h hnb' hlk,
      "Hostname ", " not declared in machine_roles\n" ++
        ("You need to either:\n" ++ ("    * declare roles for that hostname in that variable\n" ++
          ("    * set your hostname using \x60hostnamectl hostname <intended-hostname>\n" ++
            ("Valid hostnames are: " ++ (pyReprStrList Mint.validHostnamesSorted ++ "\n"))))),
      rfl⟩
  · intro rs hlk m k
    obtain ⟨repos, pkgs, fps, heq⟩ := Mint.mainOutcome_declared_mint h rs hlk
    rw [heq]
    exact fun hcon => RunOutcome.noConfusion hcon

/-- C4 witness: the undeclared, break-free hostname `zork` takes the exit-4
branch with the full diagnostic, and the declared hostname `jay` never
does. -/
theorem claim_C4_unknown_hostname_witness :
    (Nhb.mainOutcome "zork" =
      .fatalConfig (unknownMessage "zork" (pyReprStrList Nhb.validHostnamesSorted)) 4 ∧
     (∃ a b, unknownMessage "zork" (pyReprStrList Nhb.validHostnamesSorted) =
       a ++ ("zork" ++ b)) ∧
     (∃ a b, unknownMessage "zork" (pyReprStrList Nhb.validHostnamesSorted) =
       a ++ (pyReprStrList Nhb.validHostnamesSorted ++ b))) ∧
    (∀ m k, Nhb.mainOutcome "jay" ≠ .fatalConfig m k) :=
  ⟨((claim_C4_unknown_hostname.1 "zork" (by decide)).1 (by decide)),
   ((claim_C4_unknown_hostname.1 "jay" (by decide)).2.1
     {"common", "gnome", "home", "work"} (by decide))⟩

set_option maxRecDepth 16000 in
/-- C6 counterexample: on the hostname `jay.example.com` the two variants
disagree — the mint variant strips to the leading label `jay` (declared) and
proceeds to an install plan, while `nick_home_box.py` passes `gethostname()`
to the `machine_roles` lookup unstripped and takes the unknown-hostname exit
4; so the leading label is not "used for the lookup" in both variants. -/
theorem claim_C6_counterexample :
    leadingLabel "jay.example.com" = "jay" ∧
    (∃ m, Nhb.mainOutcome "jay.example.com" = .fatalConfig m 4) ∧
    (∃ repos pkgs fps, Mint.mainOutcome "jay.example.com" = .installPlan repos pkgs fps) :=
  ⟨by decide,
   ⟨_, Nhb.mainOutcome_unknown_nhb "jay.example.com" (by decide) (by decide)⟩,
   Mint.mainOutcome_declared_mint "jay.example.com"
     {"common", "gnome", "home", "laptop", "work"} (by decide)⟩

/-- C6 (amended): only `nick_home_box_mint.py` strips the hostname at the
first dot — its whole run depends only on the leading label, so appending
any domain suffix changes nothing; `nick_home_box.py` uses the hostname
string exactly as returned by `gethostname()`. -/
theorem claim_C6_leading_label :
    ∀ name domain : String, '.' ∉ name.data →
      leadingLabel (name ++ "." ++ domain) = name ∧
      leadingLabel name = name ∧
      Mint.mainOutcome (name ++ "." ++ domain) = Mint.mainOutcome name := by
  intro name domain h
  refine ⟨leadingLabel_append_domain name domain h, leadingLabel_no_dot name h, ?_⟩
  unfold Mint.mainOutcome
  rw [leadingLabel_append_domain name domain h, leadingLabel_no_dot name h]

/-- C6 witness: concrete instance at `jay` + `example.com`. -/
theorem claim_C6_leading_label_witness :
    leadingLabel ("jay" ++ "." ++ "example.com") = "jay" ∧
    leadingLabel "jay" = "jay" ∧
    Mint.mainOutcome ("jay" ++ "." ++ "example.com") = Mint.mainOutcome "jay" :=
  claim_C6_leading_label "jay" "example.com" (by decide)

/-- C7: `extra_repos_for_packages` lists each resolved repo record exactly
once — iterating the deduplicated tag set, the `vscode` record appears
exactly once whenever some package requiring it (here `code`, the only one)
is in the package set — and a package with no entry in `package_dnf_repos`
contributes nothing.  Both variants. -/
theorem claim_C7_repo_once :
    (∀ (P : Finset String) (l : Multiset Nhb.Repo),
      Nhb.extraReposForPackages P = some l →
        (∀ x ∈ l, l.count x = 1) ∧
        ("code" ∈ P → l = {(lookupStr Nhb.dnfRepos "vscode").getD default})) ∧
    (∀ (p : String) (P : Finset String), lookupStr Nhb.packageDnfRepos p = none →
      Nhb.extraReposForPackages (insert p P) = Nhb.extraReposForPackages P) ∧
    (∀ (P : Finset String) (l : Multiset Mint.Repo),
      Mint.extraReposForPackages P = some l →
        (∀ x ∈ l, l.count x = 1) ∧
        ("code" ∈ P → l = {(lookupStr Mint.dnfRepos "vscode").getD default})) ∧
    (∀ (p : String) (P : Finset String), lookupStr Mint.packageDnfRepos p = none →
      Mint.extraReposForPackages (insert p P) = Mint.extraReposForPackages P) := by
  refine ⟨?_, fun p P hp => extraRepos_insert_none _ _ p P hp,
    ?_, fun p P hp => extraRepos_insert_none _ _ p P hp⟩
  · intro P l h
    have hcases := extraRepos_singleton_cases Nhb.packageDnfRepos Nhb.dnfRepos
      "vscode" (by decide) (by decide) P l h
    constructor
    · intro x hx
      rcases hcases with ⟨_, rfl⟩ | ⟨_, rfl⟩
      · simp at hx
      · simp at hx
        subst hx
        simp
    · intro hc
      have hmem : "vscode" ∈ extraRepoNames Nhb.packageDnfRepos P :=
        mem_extraRepoNames_of_lookup Nhb.packageDnfRepos "code" {"vscode"}
          (by decide) "vscode" (by decide) P hc
      rcases hcases with ⟨he, _⟩ | ⟨_, rfl⟩
      · rw [he] at hmem
        simp at hmem
      · rfl
  · intro P l h
    have hcases := extraRepos_singleton_cases Mint.packageDnfRepos Mint.dnfRepos
      "vscode" (by decide) (by decide) P l h
    constructor
    · intro x hx
      rcases hcases with ⟨_, rfl⟩ | ⟨_, rfl⟩
      · simp at hx
      · simp at hx
        subst hx
        simp
    · intro hc
      have hmem : "vscode" ∈ extraRepoNames Mint.packageDnfRepos P :=
        mem_extraRepoNames_of_lookup Mint.packageDnfRepos "code" {"vscode"}
          (by decide) "vscode" (by decide) P hc
      rcases hcases with ⟨he, _⟩ | ⟨_, rfl⟩
      · rw [he] at hmem
        simp at hmem
      · rfl

set_option maxRecDepth 16000 in
/-- C7 witness: with a package set containing `code`, the vscode repo record
appears exactly once. -/
theorem claim_C7_repo_once_witness :
    (∀ x ∈ ({(lookupStr Nhb.dnfRepos "vscode").getD default} : Multiset Nhb.Repo),
      ({(lookupStr Nhb.dnfRepos "vscode").getD default} : Multiset Nhb.Repo).count x = 1) ∧
    ("code" ∈ ({"code", "keepassxc"} : Finset String) →
      ({(lookupStr Nhb.dnfRepos "vscode").getD default} : Multiset Nhb.Repo) =
        {(lookupStr Nhb.dnfRepos "vscode").getD default}) :=
  claim_C7_repo_once.1 {"code", "keepassxc"}
    {(lookupStr Nhb.dnfRepos "vscode").getD default} (by decide)

end BoxBuild
